import Mathlib

/-!
Verification of the data-loading layer of lightning-flash (`flash/core/data/data_source.py`
and `flash/image/detection/data.py`) against its natural-language specification.

The Python functions are shallowly embedded as executable Lean definitions:
filesystem enumeration (`os.scandir`, `os.walk`, `os.listdir`) is passed in as
explicit data so that theorems can quantify over every enumeration order, and
Python exceptions are represented with `Except`.
-/

namespace Flash

/-! ## Python string primitives

Python `str.lower()` and `str.endswith` are modelled on the character list of a
`String`.  `Char.toLower` performs the ASCII case folding that is the relevant
fragment here (all extensions and filenames in the claims are ASCII). -/

/-- Python `str.lower()`: lower-case every character of the string. -/
def pyLower (s : String) : String := ⟨s.data.map Char.toLower⟩

/-- Python `s.endswith(suffix)` for a single suffix: `suffix` is a suffix of `s`. -/
def pyEndsWith (s suffix : String) : Bool := suffix.data.isSuffixOf s.data

/-- Embedding of `has_file_allowed_extension` (`data_source.py` lines 49-59):
`filename.lower().endswith(extensions)`.  Python `str.endswith` applied to a
tuple of suffixes returns `True` when the string ends with any member of the
tuple, so the tuple argument becomes a list and the check an `any`.  Note the
source lower-cases only the filename, never the extensions (its docstring asks
the caller for lowercase extensions). -/
def has_file_allowed_extension (filename : String) (extensions : List String) : Bool :=
  extensions.any (fun ext => pyEndsWith (pyLower filename) ext)

/-- Written from the spec sentence for claim C9, for comparison with
`has_file_allowed_extension`: a case-insensitive suffix match in which neither
the letter case of the filename nor that of the allow-list entry matters, so
both sides are lower-cased before comparing. -/
def spec_case_insensitive_match (filename : String) (extensions : List String) : Bool :=
  extensions.any (fun ext => pyEndsWith (pyLower filename) (pyLower ext))

/-! ## Filesystem model and `make_dataset`

`make_dataset` (`data_source.py` lines 64-111) walks one subdirectory per class.
The filesystem is passed in explicitly:

* `isdir d` models `os.path.isdir(d)`;
* `walk d` models `os.walk(d, followlinks=True)`: the list, in filesystem
  enumeration order, of `(root, fnames)` pairs (the unused `dirs` component of
  each `os.walk` triple is dropped; the roots produced by one walk are distinct,
  so Python's lexicographic sort of the triples is a sort on the root).

`os.path.expanduser` is modelled as the identity (no claim involves `~` paths)
and `os.path.join` as `/`-concatenation.  The Python dict `class_to_idx` is an
association list with distinct keys; `sorted(class_to_idx.keys())` sorts the
key list and `class_to_idx[target_class]` is association-list lookup. -/

/-- Python `os.path.join(a, b)` for a relative second component. -/
def pathJoin (a b : String) : String := a ++ "/" ++ b

/-- Lexicographic `≤` on character lists by code point: exactly how Python
compares two strings (a proper prefix is smaller). -/
def lexLe : List Char → List Char → Bool
  | [], _ => true
  | _ :: _, [] => false
  | a :: as, b :: bs => if a < b then true else if b < a then false else lexLe as bs

/-- Python string comparison `a <= b` (lexicographic on code points). -/
def strLeB (a b : String) : Bool := lexLe a.data b.data

/-- The string comparison as a relation, for use with `List.insertionSort`. -/
def strLeR (a b : String) : Prop := strLeB a b = true

instance : DecidableRel strLeR := fun a b => inferInstanceAs (Decidable (strLeB a b = true))

/-- Python `sorted` on a list of strings (`insertionSort` is used because it is
structurally recursive; the sorted result is unique here, see
`sorted_unique_of_perm`, so the choice of algorithm is immaterial). -/
def sortStrings (l : List String) : List String := List.insertionSort strLeR l

/-- Order on walk entries used by `sorted(os.walk(...))`: compare the roots
(roots are distinct within one walk, so sorting the `os.walk` triples
lexicographically is sorting by root). -/
def walkLeR (p q : String × List String) : Prop := strLeB p.1 q.1 = true

instance : DecidableRel walkLeR := fun p q => inferInstanceAs (Decidable (strLeB p.1 q.1 = true))

/-- Python `sorted(os.walk(...))`: the walk entries sorted by root. -/
def sortWalk (l : List (String × List String)) : List (String × List String) :=
  List.insertionSort walkLeR l

/-- Canonical form of a walk listing: each entry's file names sorted.  Two
enumerations of the same directory tree have permutation-equal canonical
forms, which is how "identical trees" is expressed in the determinism claim. -/
def canonWalk (l : List (String × List String)) : List (String × List String) :=
  l.map (fun p => (p.1, sortStrings p.2))

/-- Python dict lookup on an association list (distinct keys). -/
def dictLookup {γ : Type} (m : List (String × γ)) (k : String) : Option γ :=
  (m.find? (fun p => p.1 == k)).map (fun p => p.2)

/-- Error raised by `make_dataset`; the source raises a Python `ValueError`
(the spec calls it a configuration error). -/
inductive DatasetError
  | valueError (msg : String)
deriving DecidableEq

/-- Message of the configuration `ValueError` raised by `make_dataset`. -/
def configErrorMsg : String :=
  "Both extensions and is_valid_file cannot be None or not None at the same time"

/-- The `is_valid_file` check used inside `make_dataset` (lines 94-99): when an
extensions allow-list is supplied, validity is `has_file_allowed_extension`;
otherwise it is the caller's predicate (`getD` is unreachable in the non-error
branch, where exactly one option is present). -/
def makeDatasetValid (extensions : Option (List String))
    (is_valid_file : Option (String → Bool)) : String → Bool :=
  match extensions with
  | some exts => fun x => has_file_allowed_extension x exts
  | none => fun x => (is_valid_file.getD (fun _ => false)) x

/-- Embedding of `make_dataset` (`data_source.py` lines 64-111).  It raises when
`extensions` and `is_valid_file` are both `None` or both supplied; otherwise,
for each class key in sorted order, it walks the class directory (skipping a
key whose directory does not exist), sorts the walk entries and each entry's
file names, and keeps the joined paths accepted by the validity check. -/
def make_dataset (directory : String) (class_to_idx : List (String × Nat))
    (isdir : String → Bool) (walk : String → List (String × List String))
    (extensions : Option (List String)) (is_valid_file : Option (String → Bool)) :
    Except DatasetError (List (String × Nat)) :=
  if extensions.isNone && is_valid_file.isNone ||
      (extensions.isSome && is_valid_file.isSome) then
    .error (.valueError configErrorMsg)
  else
    .ok <| (sortStrings (class_to_idx.map (fun p => p.1))).flatMap (fun target_class =>
      match dictLookup class_to_idx target_class with
      | none => []
      | some class_index =>
        if !isdir (pathJoin directory target_class) then []
        else (sortWalk (walk (pathJoin directory target_class))).flatMap (fun rf =>
          (sortStrings rf.2).filterMap (fun fname =>
            if makeDatasetValid extensions is_valid_file (pathJoin rf.1 fname) then
              some (pathJoin rf.1 fname, class_index)
            else none)))

/-! ## `PathsDataSource.find_classes` -/

/-- One entry of `os.scandir`: a name together with whether it is a directory. -/
structure DirEntry where
  name : String
  isDir : Bool
deriving DecidableEq

/-- Embedding of `PathsDataSource.find_classes` (`data_source.py` lines
396-409) applied to the `os.scandir` listing of the root, given in filesystem
enumeration order: keep the directory entries, sort their names, and number
them `0..n-1` (the dict comprehension `{cls_name: i for i, cls_name in
enumerate(classes)}` becomes an association list; class names are distinct, so
no dict-key collision arises). -/
def find_classes (entries : List DirEntry) : List String × List (String × Nat) :=
  let classes := sortStrings ((entries.filter (fun d => d.isDir)).map (fun d => d.name))
  (classes, classes.enum.map (fun p => (p.2, p.1)))

/-! ## `PathsDataSource.load_data` on a directory root

Samples produced by the path-based sources are Python dicts keyed by
`DefaultDataKeys`; values are file paths or class indices. -/

/-- The `DefaultDataKeys` enum (`data_source.py` lines 156-167). -/
inductive DataKey
  | input
  | preds
  | target
  | metadata
deriving DecidableEq, BEq

/-- Value stored in a sample produced by the path-based sources: a file path or
a class index. -/
inductive PVal
  | path (p : String)
  | idx (n : Nat)
deriving DecidableEq

/-- Sample dict of the path-based sources (association list on `DataKey`). -/
abbrev Sample := List (DataKey × PVal)

/-- Everything `PathsDataSource.load_data` observes about a root directory:
the `os.scandir` listing of the root, the `os.listdir` file names of the root,
`os.path.isdir` on arbitrary paths and `os.walk` from arbitrary directories —
each in raw filesystem enumeration order. -/
structure DirFS where
  root : String
  entries : List DirEntry
  listdir : List String
  isdir : String → Bool
  walk : String → List (String × List String)

/-- Embedding of `SequenceDataSource.predict_load_data` (`data_source.py` lines
376-377): wrap each input in a dict with only the `INPUT` key. -/
def SequenceDataSource.predict_load_data (data : List String) : List Sample :=
  data.map (fun input => [(DataKey.input, PVal.path input)])

/-- Sample dict lookup (`sample[key]`, as an `Option`). -/
def dictLookupKey (s : Sample) (k : DataKey) : Option PVal :=
  (s.find? (fun p => p.1 == k)).map (fun p => p.2)

/-- Value of `sample[DefaultDataKeys.INPUT]` as a path.  In the code paths
embedded here every sample carries a path under the `INPUT` key; a missing key
would be a Python `KeyError` (unreachable, modelled as `""`). -/
def sampleInputPath (s : Sample) : String :=
  match dictLookupKey s DataKey.input with
  | some (PVal.path p) => p
  | _ => ""

/-- Embedding of `PathsDataSource.predict_load_data` (`data_source.py` lines
441-455) on a directory: list the root's files, join them onto the root, wrap
each as an input-only sample and keep those whose path passes
`has_file_allowed_extension` with the source's extensions. -/
def PathsDataSource.predict_load_data_dir (extensions : List String) (fs : DirFS) : List Sample :=
  let data := fs.listdir.map (fun file => pathJoin fs.root file)
  (SequenceDataSource.predict_load_data data).filter
    (fun sample => has_file_allowed_extension (sampleInputPath sample) extensions)

/-- Embedding of `PathsDataSource.load_data` (`data_source.py` lines 419-433)
in the `isdir(data)` branch (the claim quantifies over root directories).
`extensions` is the source's `self.extensions`, assumed configured (a source
whose `extensions` is `None` raises a `TypeError` inside the filters of both
branches).  The first component of the result records the `num_classes`
attribute set on the dataset argument, `none` when it is left unset; the
`LabelsState` side effect is not modelled (no claim concerns it). -/
def PathsDataSource.load_data_dir (extensions : List String) (fs : DirFS) :
    Except DatasetError (Option Nat × List Sample) :=
  let fc := find_classes fs.entries
  let classes := fc.1
  let class_to_idx := fc.2
  if classes.isEmpty then
    .ok (none, PathsDataSource.predict_load_data_dir extensions fs)
  else
    match make_dataset fs.root class_to_idx fs.isdir fs.walk (some extensions) none with
    | .error e => .error e
    | .ok data =>
      .ok (some classes.length,
        data.map (fun pt => [(DataKey.input, PVal.path pt.1), (DataKey.target, PVal.idx pt.2)]))

/-! ## `COCODataSource.load_data`

The COCO annotation file (`flash/image/detection/data.py` lines 40-94) is
embedded as the record lists of its JSON content, in file order.  Box
coordinates are integers (the claims involve only additions and comparisons,
which are exact).  The relevant `pycocotools` accessors are embedded with
them: `coco.loadCats(coco.getCatIds())` returns the category records in file
order (no sorting happens in either call), `sorted(coco.imgs.keys())` sorts
the distinct image ids, `coco.loadImgs` maps ids back to records (image ids
are unique per the COCO schema; lookup is `find?`), and
`coco.loadAnns(coco.getAnnIds(imgIds=i))` returns the annotation records with
`image_id = i` in file order. -/

/-- One COCO bounding box in raw `[x, y, width, height]` form. -/
structure Bbox where
  x : Int
  y : Int
  w : Int
  h : Int
deriving DecidableEq

/-- One record of the `annotations` list of a COCO file. -/
structure CocoAnn where
  image_id : Nat
  bbox : Bbox
  category_id : Nat
  area : Int
  iscrowd : Nat
deriving DecidableEq

/-- One record of the `images` list of a COCO file. -/
structure CocoImage where
  id : Nat
  file_name : String
deriving DecidableEq

/-- One record of the `categories` list of a COCO file. -/
structure CocoCategory where
  id : Nat
deriving DecidableEq

/-- The content of a COCO annotation file, each list in file order. -/
structure CocoFile where
  images : List CocoImage
  annotations : List CocoAnn
  categories : List CocoCategory
deriving DecidableEq

/-- Largest category id present in the file (`0` when there are none); this is
what the spec claims `num_classes - 1` to be. -/
def maxCategoryId (coco : CocoFile) : Nat :=
  (coco.categories.map (fun c => c.id)).foldr max 0

/-- Embedding of `coco.loadAnns(coco.getAnnIds(imgIds=img_id))`: the
annotation records for one image, in file order. -/
def annsOf (coco : CocoFile) (img_id : Nat) : List CocoAnn :=
  coco.annotations.filter (fun a => a.image_id == img_id)

/-- Nat comparison used to model Python's `sorted` on the image ids. -/
def natLeR (a b : Nat) : Prop := a ≤ b

instance : DecidableRel natLeR := fun a b => inferInstanceAs (Decidable (a ≤ b))

/-- Embedding of `img_ids = list(sorted(coco.imgs.keys()))`: the distinct image
ids of the file, sorted (`coco.imgs` is a dict keyed by image id, so duplicate
ids would collapse; `dedup` keeps the distinct ids). -/
def sortedImgIds (coco : CocoFile) : List Nat :=
  List.insertionSort natLeR ((coco.images.map (fun im => im.id)).dedup)

/-- Embedding of `coco.loadImgs`: the image record with the given id (image
ids are unique in a COCO file). -/
def loadImg (coco : CocoFile) (i : Nat) : Option CocoImage :=
  coco.images.find? (fun im => im.id == i)

/-- The `zip(img_ids, paths)` pairs the loop of `COCODataSource.load_data`
iterates over: each sorted image id with its record's `file_name`. -/
def imgEntries (coco : CocoFile) : List (Nat × String) :=
  (sortedImgIds coco).filterMap (fun i => (loadImg coco i).map (fun im => (i, im.file_name)))

/-- Line 65's per-box test `any(o <= 1 for o in obj["bbox"][2:])`: the raw
width or the raw height is at most one. -/
def rawDegenerate (a : CocoAnn) : Bool := decide (a.bbox.w ≤ 1) || decide (a.bbox.h ≤ 1)

/-- Line 65's skip test: during training, skip the image when every one of its
annotations has a raw-degenerate box (vacuously when it has none). -/
def skipImage (training : Bool) (anns : List CocoAnn) : Bool :=
  training && anns.all rawDegenerate

/-- Lines 69-74: convert a raw `[x, y, w, h]` box to `[xmin, ymin, xmax, ymax]`. -/
def convertBox (a : CocoAnn) : List Int :=
  [a.bbox.x, a.bbox.y, a.bbox.x + a.bbox.w, a.bbox.y + a.bbox.h]

/-- Line 75's `keep = (bbox[3] > bbox[1]) & (bbox[2] > bbox[0])`: the converted
box has `ymax > ymin` and `xmax > xmin`. -/
def keepBox (a : CocoAnn) : Bool :=
  decide (a.bbox.y + a.bbox.h > a.bbox.y) && decide (a.bbox.x + a.bbox.w > a.bbox.x)

/-- The `target` dict built for one image (lines 82-93). -/
structure CocoTarget where
  boxes : List (List Int)
  labels : List Nat
  image_id : Nat
  area : List Int
  iscrowd : List Nat
deriving DecidableEq

/-- One sample dict appended to `data` (lines 82-93). -/
structure CocoSample where
  input : String
  target : CocoTarget
deriving DecidableEq

/-- The sample dict appended for one retained image (lines 82-93): its boxes,
labels, areas and crowd flags are those of its annotations that pass the
`keep` test of line 75, positionally aligned. -/
def buildSample (root : String) (img_id : Nat) (file_name : String)
    (anns : List CocoAnn) : CocoSample :=
  { input := pathJoin root file_name
    target :=
      { boxes := (anns.filter keepBox).map convertBox
        labels := (anns.filter keepBox).map (fun a => a.category_id)
        image_id := img_id
        area := (anns.filter keepBox).map (fun a => a.area)
        iscrowd := (anns.filter keepBox).map (fun a => a.iscrowd) } }

/-- Body of the image loop of `COCODataSource.load_data` (lines 56-93): `none`
when the `continue` of line 66 fires, otherwise the sample built from the
annotations that pass `keep`. -/
def processImage (training : Bool) (root : String) (coco : CocoFile)
    (img_id : Nat) (file_name : String) : Option CocoSample :=
  if skipImage training (annsOf coco img_id) then none
  else some (buildSample root img_id file_name (annsOf coco img_id))

/-- Result of `COCODataSource.load_data`: the `num_classes` attribute set on
the dataset argument (`none` when it is left unset) and the sample list. -/
structure CocoLoadResult where
  num_classes : Option Nat
  data : List CocoSample
deriving DecidableEq

/-- Embedding of `COCODataSource.load_data` (`data.py` lines 42-94).
`training` is `self.training` (`True` exactly in the training stage).  Line 49
reads `categories[-1]["id"] + 1` — the id of the file's last category record,
plus one — guarded by `if categories:`. -/
def COCODataSource_load_data (training : Bool) (root : String) (coco : CocoFile) :
    CocoLoadResult :=
  { num_classes := (coco.categories.getLast?).map (fun c => c.id + 1)
    data := (imgEntries coco).filterMap (fun e => processImage training root coco e.1 e.2) }

/-- Concrete annotation file used as witness input for claim C5: one image
with id `7` and one annotation carrying the spec's example box
`[10, 20, 30, 15]`, label `3`, area `450`. -/
def cocoWitnessFile : CocoFile :=
  { images := [⟨7, "a.png"⟩]
    annotations := [⟨7, ⟨10, 20, 30, 15⟩, 3, 450, 0⟩]
    categories := [⟨3⟩] }

/-! ## `DataSource.generate_dataset` and the `MockDataset` placeholder

`generate_dataset` (`data_source.py` lines 278-318) resolves the `load_data`
hook for the running stage and inspects its signature: a hook declaring a
`dataset` parameter is called with a fresh `MockDataset` placeholder, any other
hook with the raw data only.  A hook is embedded as one of two constructors;
a `withDatasetArg` hook returns, besides its samples, the list of attribute
writes it performed on the placeholder, in order.  `α` is the raw-data element
type, `β` the sample type (a placeholder is not a `β`, so it cannot occur among
the samples), `γ` the attribute-value type, and the Python dicts involved are
partial maps (no claim observes dict ordering). -/

/-- Raw data handed to `generate_dataset`: either a Python `Sequence` (whose
elements may be `None`) or any non-sequence object. -/
inductive PyData (α : Type)
  | seq (elems : List (Option α))
  | atom (v : α)

/-- The resolved `load_data` hook, split by whether its signature declares a
`dataset` parameter (line 308's `len(parameters) > 1 and "dataset" in
parameters`). -/
inductive Hook (α β γ : Type)
  | noDatasetArg (f : PyData α → List β)
  | withDatasetArg (f : PyData α → List (String × γ) × List β)

/-- The `MockDataset` placeholder (`data_source.py` lines 170-181): its
`metadata` dict, as a partial map. -/
structure MockDataset (γ : Type) where
  metadata : String → Option γ

/-- A fresh `MockDataset` (line 176: `self.metadata = {}`). -/
def MockDataset.initial {γ : Type} : MockDataset γ := ⟨fun _ => none⟩

/-- Embedding of `MockDataset.__setattr__` (lines 178-181): record the write in
the `metadata` dict unless the attribute written is `metadata` itself. -/
def MockDataset.setattrHook {γ : Type} (m : MockDataset γ) (key : String) (value : γ) :
    MockDataset γ :=
  if key = "metadata" then m
  else ⟨fun k => if k = key then some value else m.metadata k⟩

/-- Apply a hook's attribute writes to a placeholder, in order. -/
def runWrites {γ : Type} (m : MockDataset γ) (ws : List (String × γ)) : MockDataset γ :=
  ws.foldl (fun acc kv => acc.setattrHook kv.1 kv.2) m

/-- Last value written for a key in a list of attribute writes. -/
def lastWrite {γ : Type} : List (String × γ) → String → Option γ
  | [], _ => none
  | (k', v) :: rest, k =>
    match lastWrite rest k with
    | some r => some r
    | none => if k = k' then some v else none

/-- Outcome of `generate_dataset`: `skipped` when it returns `None`,
`indexError` when the `data[0]` check raises, otherwise the produced dataset —
its samples together with the attributes copied from the placeholder
(line 317's `dataset.__dict__.update(mock_dataset.metadata)`). -/
inductive GenResult (β γ : Type)
  | skipped
  | indexError
  | made (data : List β) (attrs : String → Option γ)

/-- Embedding of `DataSource.generate_dataset` (`data_source.py` lines
278-318).  `data is None` skips; a `Sequence` first element of `None` skips
(and an empty `Sequence` raises `IndexError` at `data[0]`); otherwise the
resolved hook runs — with the placeholder exactly when it declares a `dataset`
parameter — and the placeholder's captured metadata is copied onto the
produced dataset.  The produced dataset is always the sized variant here
because the embedded samples form a list (`has_len` holds). -/
def generate_dataset {α β γ : Type} (hook : Hook α β γ) (data : Option (PyData α)) :
    GenResult β γ :=
  match data with
  | none => .skipped
  | some d =>
    match d with
    | .seq [] => .indexError
    | .seq (none :: _) => .skipped
    | _ =>
      match hook with
      | .noDatasetArg f => .made (f d) (MockDataset.initial.metadata)
      | .withDatasetArg f =>
        let r := f d
        .made r.2 ((runWrites MockDataset.initial r.1).metadata)

/-! ## Order-theoretic facts about the embedded string comparison -/

theorem lexLe_total : ∀ as bs : List Char, lexLe as bs = true ∨ lexLe bs as = true := by
  intro as
  induction as with
  | nil => intro bs; left; rfl
  | cons a as ih =>
    intro bs
    cases bs with
    | nil => right; rfl
    | cons b bs =>
      rcases lt_trichotomy a b with h | h | h
      · left; simp [lexLe, h]
      · subst h
        rcases ih bs with h' | h'
        · left; simp [lexLe, lt_irrefl, h']
        · right; simp [lexLe, lt_irrefl, h']
      · right; simp [lexLe, h]

theorem lexLe_trans :
    ∀ as bs cs : List Char, lexLe as bs = true → lexLe bs cs = true → lexLe as cs = true := by
  intro as
  induction as with
  | nil => intro bs cs _ _; rfl
  | cons a as ih =>
    intro bs cs h1 h2
    cases bs with
    | nil => simp [lexLe] at h1
    | cons b bs =>
      cases cs with
      | nil => simp [lexLe] at h2
      | cons c cs =>
        have hab : ¬ b < a := by
          intro hba
          have : ¬ a < b := lt_asymm hba
          simp [lexLe, this, hba] at h1
        have hbc : ¬ c < b := by
          intro hcb
          have : ¬ b < c := lt_asymm hcb
          simp [lexLe, this, hcb] at h2
        rcases lt_trichotomy a c with h | h | h
        · simp [lexLe, h]
        · subst h
          have hb1 : a = b := le_antisymm (le_of_not_lt hab) (le_of_not_lt hbc)
          subst hb1
          simp [lexLe, lt_irrefl] at h1 h2 ⊢
          exact ih _ _ h1 h2
        · exfalso
          rcases lt_trichotomy a b with hx | hx | hx
          · exact absurd (lt_trans hx (lt_of_le_of_lt (le_of_not_lt hbc) h))
              (lt_irrefl a)
          · subst hx
            exact hbc (lt_of_lt_of_le h (le_of_not_lt hab))
          · exact hab hx

theorem lexLe_antisymm :
    ∀ as bs : List Char, lexLe as bs = true → lexLe bs as = true → as = bs := by
  intro as
  induction as with
  | nil =>
    intro bs _ h2
    cases bs with
    | nil => rfl
    | cons b bs => simp [lexLe] at h2
  | cons a as ih =>
    intro bs h1 h2
    cases bs with
    | nil => simp [lexLe] at h1
    | cons b bs =>
      have hab : ¬ a < b := by
        intro h
        have : ¬ b < a := lt_asymm h
        simp [lexLe, this, h] at h2
      have hba : ¬ b < a := by
        intro h
        have : ¬ a < b := lt_asymm h
        simp [lexLe, this, h] at h1
      have : a = b := le_antisymm (le_of_not_lt hba) (le_of_not_lt hab)
      subst this
      simp [lexLe, lt_irrefl] at h1 h2
      rw [ih bs h1 h2]

instance : IsTotal String strLeR :=
  ⟨fun a b => lexLe_total a.data b.data⟩

instance : IsTrans String strLeR :=
  ⟨fun a b c => lexLe_trans a.data b.data c.data⟩

instance : IsAntisymm String strLeR := by
  refine ⟨fun a b h1 h2 => ?_⟩
  cases a with
  | mk as =>
    cases b with
    | mk bs => exact congrArg String.mk (lexLe_antisymm as bs h1 h2)

instance : IsTotal (String × List String) walkLeR :=
  ⟨fun p q => lexLe_total p.1.data q.1.data⟩

instance : IsTrans (String × List String) walkLeR :=
  ⟨fun p q r => lexLe_trans p.1.data q.1.data r.1.data⟩

theorem sortStrings_sorted (l : List String) : List.Sorted strLeR (sortStrings l) :=
  List.sorted_insertionSort strLeR l

theorem sortStrings_perm (l : List String) : (sortStrings l).Perm l :=
  List.perm_insertionSort strLeR l

/-- Sorting is invariant under the enumeration order of its input: any two
permutation-equal lists have the same sorted form. -/
theorem sorted_unique_of_perm {l l' : List String} (h : l.Perm l') :
    sortStrings l = sortStrings l' :=
  List.eq_of_perm_of_sorted
    ((sortStrings_perm l).trans (h.trans (sortStrings_perm l').symm))
    (sortStrings_sorted l) (sortStrings_sorted l')

/-- A sorted list is the unique sorted form of each of its permutations. -/
theorem sortStrings_eq_of_perm_sorted {l cs : List String} (h : l.Perm cs)
    (hs : List.Sorted strLeR cs) : sortStrings l = cs :=
  List.eq_of_perm_of_sorted ((sortStrings_perm l).trans h) (sortStrings_sorted l) hs

/-! ## Claim C9: extension matching -/

/-- Claim C9, counterexample.  `has_file_allowed_extension` is not the
case-insensitive suffix match the claim describes: the source lower-cases the
filename but not the allow-list entry, so the upper-case allow-list entry
`".JPG"` fails to match `"a.jpg"` even though it is a case-insensitive suffix
of it (`spec_case_insensitive_match` is the claim's predicate, written from
the spec's words). -/
theorem has_file_allowed_extension_case_counterexample :
    has_file_allowed_extension "a.jpg" [".JPG"] = false ∧
      spec_case_insensitive_match "a.jpg" [".JPG"] = true := by
  constructor
  · decide
  · decide

/-- Claim C9, amended.  `has_file_allowed_extension` returns `true` iff some
extension in the allow-list is a verbatim suffix of the lower-cased filename:
the match is insensitive to the letter case of the filename but sensitive to
that of the allow-list entry (the source expects lowercase entries). -/
theorem has_file_allowed_extension_lower_filename (filename : String)
    (extensions : List String) :
    has_file_allowed_extension filename extensions = true ↔
      ∃ ext ∈ extensions, pyEndsWith (pyLower filename) ext = true := by
  simp [has_file_allowed_extension, List.any_eq_true]

/-! ## Claim C2: mutually exclusive filtering options of `make_dataset` -/

/-- Claim C2.  `make_dataset` raises its configuration `ValueError` exactly when the
extensions allow-list and the validity predicate are both supplied or both
omitted; when exactly one of the two is supplied it returns a sample list and
raises no error. -/
theorem make_dataset_mutual_exclusion (directory : String)
    (class_to_idx : List (String × Nat)) (isdir : String → Bool)
    (walk : String → List (String × List String))
    (extensions : Option (List String)) (is_valid_file : Option (String → Bool)) :
    ((∃ msg, make_dataset directory class_to_idx isdir walk extensions is_valid_file =
        .error (.valueError msg)) ↔ (extensions.isSome ↔ is_valid_file.isSome)) ∧
    ((extensions.isSome ↔ ¬ is_valid_file.isSome = true) →
      ∃ l, make_dataset directory class_to_idx isdir walk extensions is_valid_file = .ok l) := by
  cases extensions <;> cases is_valid_file <;> simp [make_dataset]

/-- Claim C2, witness: with only an extensions allow-list supplied, `make_dataset`
returns a sample list. -/
theorem make_dataset_mutual_exclusion_witness :
    ∃ l, make_dataset "r" [("c", 0)] (fun _ => true) (fun _ => []) (some [".jpg"]) none =
      .ok l :=
  (make_dataset_mutual_exclusion "r" [("c", 0)] (fun _ => true) (fun _ => [])
    (some [".jpg"]) none).2 (by simp)

/-! ## Claim C1: `find_classes` -/

/-- Lookup in the association list built by enumerating a duplicate-free list:
the `i`-th element maps to index `n + i` when numbering starts at `n`. -/
theorem enum_assoc_lookup :
    ∀ (cs : List String), cs.Nodup →
      ∀ (n i : Nat) (c : String), cs[i]? = some c →
        dictLookup ((cs.enumFrom n).map (fun p => (p.2, p.1))) c = some (n + i) := by
  intro cs
  induction cs with
  | nil => intro _ n i c h; simp at h
  | cons d tl ih =>
    intro hnodup n i c h
    cases i with
    | zero =>
      simp at h
      subst h
      simp [dictLookup, List.enumFrom, List.find?]
    | succ i =>
      simp only [List.getElem?_cons_succ] at h
      have hmem : c ∈ tl := List.getElem?_mem h
      have hne : (d == c) = false := by
        have : d ≠ c := fun he => (List.nodup_cons.mp hnodup).1 (he ▸ hmem)
        simpa using this
      have hrec := ih (List.nodup_cons.mp hnodup).2 (n + 1) i c h
      rw [show n + (i + 1) = (n + 1) + i by omega]
      simpa [dictLookup, List.enumFrom, List.find?, hne] using hrec

/-- Claim C1.  For a root whose immediate subdirectory names enumerate, in any
filesystem order, to a permutation of the lexicographically sorted,
duplicate-free list `cs = [c1, ..., cn]`, `find_classes` returns exactly `cs`
together with the class-to-index mapping sending `ci` to `i - 1` — the
enumeration order of `os.scandir` is immaterial. -/
theorem find_classes_sorted_mapping (entries : List DirEntry) (cs : List String)
    (hsorted : List.Sorted strLeR cs) (hnodup : cs.Nodup)
    (hperm : ((entries.filter (fun d => d.isDir)).map (fun d => d.name)).Perm cs) :
    (find_classes entries).1 = cs ∧
      (find_classes entries).2 = cs.enum.map (fun p => (p.2, p.1)) ∧
      ∀ i c, cs[i]? = some c → dictLookup (find_classes entries).2 c = some i := by
  have h1 : sortStrings ((entries.filter (fun d => d.isDir)).map (fun d => d.name)) = cs :=
    sortStrings_eq_of_perm_sorted hperm hsorted
  refine ⟨by simp [find_classes, h1], by simp [find_classes, h1], ?_⟩
  intro i c h
  have := enum_assoc_lookup cs hnodup 0 i c h
  simpa [find_classes, h1, List.enum] using this

/-- Claim C1, witness: a root with subdirectories enumerated as `dog`, `cat` (plus a
plain file) yields classes `[cat, dog]` with `cat ↦ 0`, `dog ↦ 1`. -/
theorem find_classes_sorted_mapping_witness :
    (find_classes [⟨"dog", true⟩, ⟨"cat", true⟩, ⟨"notes.txt", false⟩]).1 = ["cat", "dog"] ∧
      (find_classes [⟨"dog", true⟩, ⟨"cat", true⟩, ⟨"notes.txt", false⟩]).2 =
        (["cat", "dog"] : List String).enum.map (fun p => (p.2, p.1)) ∧
      ∀ i c, (["cat", "dog"] : List String)[i]? = some c →
        dictLookup (find_classes [⟨"dog", true⟩, ⟨"cat", true⟩, ⟨"notes.txt", false⟩]).2 c =
          some i :=
  find_classes_sorted_mapping [⟨"dog", true⟩, ⟨"cat", true⟩, ⟨"notes.txt", false⟩]
    ["cat", "dog"] (by decide) (by decide) (by decide)

/-! ## Claim C6: determinism of `make_dataset` -/

theorem sortWalk_perm (l : List (String × List String)) : (sortWalk l).Perm l :=
  List.perm_insertionSort walkLeR l

theorem sortWalk_sorted (l : List (String × List String)) :
    List.Sorted walkLeR (sortWalk l) :=
  List.sorted_insertionSort walkLeR l

theorem canonWalk_map_fst (l : List (String × List String)) :
    (canonWalk l).map (fun p => p.1) = l.map (fun p => p.1) := by
  simp [canonWalk]

/-- Strict-on-the-root order used to show sorted walk listings are unique. -/
def walkLtR (p q : String × List String) : Prop := strLeB p.1 q.1 = true ∧ p.1 ≠ q.1

instance : IsAntisymm (String × List String) walkLtR :=
  ⟨fun _ _ h1 h2 => absurd (antisymm (r := strLeR) h1.1 h2.1) h1.2⟩

/-- Sorting one walk listing and then canonicalising it yields the same list
for any two enumerations of the same tree, provided the walk roots are
distinct (as the roots of a real `os.walk` are). -/
theorem canon_sortWalk_eq {w1 w2 : List (String × List String)}
    (hperm : (canonWalk w1).Perm (canonWalk w2))
    (hnodup : (w1.map (fun p => p.1)).Nodup) :
    canonWalk (sortWalk w1) = canonWalk (sortWalk w2) := by
  have hfst : (w1.map (fun p => p.1)).Perm (w2.map (fun p => p.1)) := by
    have := hperm.map (fun p => p.1)
    simpa [canonWalk_map_fst] using this
  have hnodup2 : (w2.map (fun p => p.1)).Nodup := hfst.nodup hnodup
  have sortedStrict : ∀ (w : List (String × List String)),
      (w.map (fun p => p.1)).Nodup → List.Pairwise walkLtR (canonWalk (sortWalk w)) := by
    intro w hnd
    have hle : List.Pairwise walkLeR (sortWalk w) := sortWalk_sorted w
    have hnd' : ((sortWalk w).map (fun p => p.1)).Nodup :=
      (((sortWalk_perm w).map (fun p => p.1)).symm).nodup hnd
    have hne : List.Pairwise (fun p q : String × List String => p.1 ≠ q.1) (sortWalk w) :=
      (List.pairwise_map.mp hnd')
    have : List.Pairwise walkLtR (sortWalk w) := by
      have := hle.and hne
      exact this.imp (fun h => ⟨h.1, h.2⟩)
    exact List.pairwise_map.mpr (this.imp (fun h => h))
  have hp : (canonWalk (sortWalk w1)).Perm (canonWalk (sortWalk w2)) :=
    (((sortWalk_perm w1).map _).trans hperm).trans (((sortWalk_perm w2).map _).symm)
  exact List.eq_of_perm_of_sorted hp (sortedStrict w1 hnodup) (sortedStrict w2 hnodup2)

/-- Emitting from a walk listing after sorting each entry's file names is the
same as emitting from the canonical listing. -/
theorem flatMap_sorted_fnames {β : Type} (l : List (String × List String))
    (g : String → List String → List β) :
    l.flatMap (fun rf => g rf.1 (sortStrings rf.2)) =
      (canonWalk l).flatMap (fun rf => g rf.1 rf.2) := by
  simp [canonWalk, List.flatMap_map]

/-- Claim C6.  For a fixed root directory, class-to-index mapping and filtering
configuration, the output of `make_dataset` is the same for any two walk
enumerations of the same directory tree (`canonWalk`-permutation-equal walk
listings with distinct roots): every run emits the identical, fully sorted
sequence of `(path, class_index)` pairs, regardless of filesystem iteration
order. -/
theorem make_dataset_deterministic (directory : String)
    (class_to_idx : List (String × Nat)) (isdir : String → Bool)
    (extensions : Option (List String)) (is_valid_file : Option (String → Bool))
    (walk1 walk2 : String → List (String × List String))
    (hperm : ∀ d, (canonWalk (walk1 d)).Perm (canonWalk (walk2 d)))
    (hnodup : ∀ d, ((walk1 d).map (fun p => p.1)).Nodup) :
    make_dataset directory class_to_idx isdir walk1 extensions is_valid_file =
      make_dataset directory class_to_idx isdir walk2 extensions is_valid_file := by
  unfold make_dataset
  by_cases h : (extensions.isNone && is_valid_file.isNone ||
      (extensions.isSome && is_valid_file.isSome)) = true
  · rw [if_pos h, if_pos h]
  · rw [if_neg h, if_neg h]
    congr 1
    refine congrArg _ (funext fun target_class => ?_)
    cases dictLookup class_to_idx target_class with
    | none => rfl
    | some class_index =>
      dsimp only
      by_cases hd : (!isdir (pathJoin directory target_class)) = true
      · rw [if_pos hd, if_pos hd]
      · rw [if_neg hd, if_neg hd]
        rw [flatMap_sorted_fnames (sortWalk (walk1 (pathJoin directory target_class)))
            (fun r fs => fs.filterMap (fun fname =>
              if makeDatasetValid extensions is_valid_file (pathJoin r fname) then
                some (pathJoin r fname, class_index)
              else none)),
          flatMap_sorted_fnames (sortWalk (walk2 (pathJoin directory target_class)))
            (fun r fs => fs.filterMap (fun fname =>
              if makeDatasetValid extensions is_valid_file (pathJoin r fname) then
                some (pathJoin r fname, class_index)
              else none)),
          canon_sortWalk_eq (hperm (pathJoin directory target_class))
            (hnodup (pathJoin directory target_class))]

/-- Claim C6, witness: two enumerations of the same one-class tree, walked in
opposite file orders, produce the same sample list. -/
theorem make_dataset_deterministic_witness :
    make_dataset "r" [("c", 0)] (fun _ => true) (fun _ => [("r/c", ["b.jpg", "a.jpg"])])
        (some [".jpg"]) none =
      make_dataset "r" [("c", 0)] (fun _ => true) (fun _ => [("r/c", ["a.jpg", "b.jpg"])])
        (some [".jpg"]) none :=
  make_dataset_deterministic "r" [("c", 0)] (fun _ => true) (some [".jpg"]) none
    (fun _ => [("r/c", ["b.jpg", "a.jpg"])]) (fun _ => [("r/c", ["a.jpg", "b.jpg"])])
    (fun _ => by
      show (canonWalk [("r/c", ["b.jpg", "a.jpg"])]).Perm (canonWalk [("r/c", ["a.jpg", "b.jpg"])])
      decide)
    (fun _ => by
      show (List.map (fun p => p.1) [("r/c", ["b.jpg", "a.jpg"])]).Nodup
      decide)

/-! ## Claim C7: flat directories yield predict-style samples only -/

/-- Claim C7.  When the root directory has no immediate subdirectory,
`PathsDataSource.load_data` takes the predict interpretation: no error is
raised, `num_classes` is left unset, and every returned sample carries the
`input` key and no `target` key. -/
theorem load_data_dir_flat_predict_only (extensions : List String) (fs : DirFS)
    (h : fs.entries.filter (fun d => d.isDir) = []) :
    ∃ samples, PathsDataSource.load_data_dir extensions fs = .ok (none, samples) ∧
      ∀ s ∈ samples, (dictLookupKey s DataKey.input).isSome = true ∧
        dictLookupKey s DataKey.target = none := by
  have hcl : (find_classes fs.entries).1 = [] := by
    simp [find_classes, h, sortStrings, List.insertionSort]
  refine ⟨PathsDataSource.predict_load_data_dir extensions fs, ?_, ?_⟩
  · simp [PathsDataSource.load_data_dir, hcl]
  · intro s hs
    simp only [PathsDataSource.predict_load_data_dir, SequenceDataSource.predict_load_data,
      List.mem_filter, List.mem_map] at hs
    obtain ⟨⟨file, _, rfl⟩, _⟩ := hs
    exact ⟨rfl, rfl⟩

/-- Claim C7, witness: a root with two plain files (one of a skipped extension) and
no subdirectory yields exactly the input-only samples. -/
theorem load_data_dir_flat_predict_only_witness :
    ∃ samples, PathsDataSource.load_data_dir [".jpg"]
        { root := "r", entries := [⟨"f1.jpg", false⟩, ⟨"f2.txt", false⟩],
          listdir := ["f1.jpg", "f2.txt"], isdir := fun _ => false, walk := fun _ => [] } =
        .ok (none, samples) ∧
      ∀ s ∈ samples, (dictLookupKey s DataKey.input).isSome = true ∧
        dictLookupKey s DataKey.target = none :=
  load_data_dir_flat_predict_only [".jpg"]
    { root := "r", entries := [⟨"f1.jpg", false⟩, ⟨"f2.txt", false⟩],
      listdir := ["f1.jpg", "f2.txt"], isdir := fun _ => false, walk := fun _ => [] }
    (by decide)

/-! ## Claims C3, C4, C5: `COCODataSource.load_data` -/

/-- Membership in the sorted image-id list is membership among the file's
image ids. -/
theorem mem_sortedImgIds {coco : CocoFile} {i : Nat} :
    i ∈ sortedImgIds coco ↔ i ∈ coco.images.map (fun im => im.id) := by
  unfold sortedImgIds
  rw [(List.perm_insertionSort natLeR _).mem_iff, List.mem_dedup]

/-- With distinct ids, `find?` by an element's own id returns that element. -/
theorem find_by_id_self :
    ∀ (l : List CocoImage) (im : CocoImage), im ∈ l →
      (l.map (fun i => i.id)).Nodup → l.find? (fun x => x.id == im.id) = some im := by
  intro l
  induction l with
  | nil => intro im hmem _; cases hmem
  | cons hd tl ih =>
    intro im hmem hnodup
    rcases List.mem_cons.mp hmem with h | h
    · subst h
      simp [List.find?]
    · have hne : (hd.id == im.id) = false := by
        have : hd.id ≠ im.id := by
          intro he
          have : im.id ∈ tl.map (fun i => i.id) := List.mem_map_of_mem _ h
          exact (List.nodup_cons.mp (by simpa using hnodup)).1 (he ▸ this)
        simpa using this
      simp only [List.find?, hne]
      exact ih im h (List.nodup_cons.mp (by simpa using hnodup)).2

/-- With unique image ids, looking an image's own id back up returns it. -/
theorem loadImg_self {coco : CocoFile} {im : CocoImage} (hmem : im ∈ coco.images)
    (hnodup : (coco.images.map (fun i => i.id)).Nodup) : loadImg coco im.id = some im :=
  find_by_id_self coco.images im hmem hnodup

/-- An image's id always contributes an entry to the image loop. -/
theorem imgEntries_mem {coco : CocoFile} {im : CocoImage} (hmem : im ∈ coco.images) :
    ∃ fn, (im.id, fn) ∈ imgEntries coco := by
  have hid : im.id ∈ sortedImgIds coco :=
    mem_sortedImgIds.mpr (List.mem_map_of_mem _ hmem)
  cases hfind : loadImg coco im.id with
  | none =>
    exfalso
    have := List.find?_eq_none.mp hfind im ((by simpa using hmem))
    simp at this
  | some im' =>
    exact ⟨im'.file_name, List.mem_filterMap.mpr ⟨im.id, hid, by simp [hfind]⟩⟩

/-- A produced sample's `image_id` is the loop id it came from. -/
theorem processImage_image_id {training : Bool} {root : String} {coco : CocoFile}
    {i : Nat} {fn : String} {s : CocoSample}
    (h : processImage training root coco i fn = some s) : s.target.image_id = i := by
  unfold processImage at h
  by_cases hskip : skipImage training (annsOf coco i) = true
  · simp [hskip] at h
  · simp only [hskip, Bool.false_eq_true, if_false] at h
    cases h
    rfl

/-- Claim C4.  During training, `COCODataSource.load_data` excludes every image all
of whose annotated boxes have raw width ≤ 1 or raw height ≤ 1 (before
coordinate conversion): no sample for the image's id appears in the output.
During predicting the same image is included. -/
theorem coco_training_excludes_degenerate (root : String) (coco : CocoFile)
    (im : CocoImage) (hmem : im ∈ coco.images)
    (hdeg : (annsOf coco im.id).all rawDegenerate = true) :
    (∀ s ∈ (COCODataSource_load_data true root coco).data, s.target.image_id ≠ im.id) ∧
      (∃ s ∈ (COCODataSource_load_data false root coco).data, s.target.image_id = im.id) := by
  constructor
  · intro s hs heq
    obtain ⟨e, he, hp⟩ := List.mem_filterMap.mp hs
    have hei : e.1 = im.id := by rw [← processImage_image_id hp, heq]
    rw [hei] at hp
    unfold processImage at hp
    have hskip : skipImage true (annsOf coco im.id) = true := by
      simp [skipImage, hdeg]
    simp [hskip] at hp
  · obtain ⟨fn, hfn⟩ := imgEntries_mem hmem
    refine ⟨buildSample root im.id fn (annsOf coco im.id),
      List.mem_filterMap.mpr ⟨(im.id, fn), hfn, ?_⟩, rfl⟩
    unfold processImage
    simp [skipImage]

/-- Claim C4, witness: with one image whose only box is `(0,0)`-sized and one image
with a valid box, the degenerate image is excluded at training time and
included at predict time. -/
theorem coco_training_excludes_degenerate_witness :
    (∀ s ∈ (COCODataSource_load_data true "r"
        { images := [⟨0, "a.png"⟩, ⟨1, "b.png"⟩],
          annotations := [⟨0, ⟨0, 0, 0, 0⟩, 0, 0, 0⟩, ⟨1, ⟨0, 0, 10, 10⟩, 2, 100, 0⟩],
          categories := [⟨0⟩, ⟨2⟩] }).data, s.target.image_id ≠ 0) ∧
      (∃ s ∈ (COCODataSource_load_data false "r"
        { images := [⟨0, "a.png"⟩, ⟨1, "b.png"⟩],
          annotations := [⟨0, ⟨0, 0, 0, 0⟩, 0, 0, 0⟩, ⟨1, ⟨0, 0, 10, 10⟩, 2, 100, 0⟩],
          categories := [⟨0⟩, ⟨2⟩] }).data, s.target.image_id = 0) := by
  have := coco_training_excludes_degenerate "r"
    { images := [⟨0, "a.png"⟩, ⟨1, "b.png"⟩],
      annotations := [⟨0, ⟨0, 0, 0, 0⟩, 0, 0, 0⟩, ⟨1, ⟨0, 0, 10, 10⟩, 2, 100, 0⟩],
      categories := [⟨0⟩, ⟨2⟩] } ⟨0, "a.png"⟩ (by decide) (by decide)
  simpa using this

/-- Claim C3, counterexample.  `COCODataSource.load_data` reads
`categories[-1]["id"] + 1`: the id of the *last-listed* category plus one,
not `max(category_id) + 1`.  For a file listing categories with ids `[5, 2]`
it sets `num_classes = 3` while the claim demands `6`. -/
theorem coco_num_classes_counterexample :
    (COCODataSource_load_data false ""
        { images := [], annotations := [], categories := [⟨5⟩, ⟨2⟩] }).num_classes ≠
      some (maxCategoryId { images := [], annotations := [], categories := [⟨5⟩, ⟨2⟩] } + 1) := by
  decide

/-- Claim C3, amended.  When at least one category exists, `num_classes` is set to
the id of the last category listed in the annotation file plus one (which
equals `max(category_id) + 1` exactly when the file lists its categories in
ascending id order); when no categories exist, `num_classes` is not set. -/
theorem coco_num_classes_last_category (training : Bool) (root : String) (coco : CocoFile) :
    (∀ c, coco.categories.getLast? = some c →
        (COCODataSource_load_data training root coco).num_classes = some (c.id + 1)) ∧
      (coco.categories = [] →
        (COCODataSource_load_data training root coco).num_classes = none) := by
  constructor
  · intro c hc
    simp [COCODataSource_load_data, hc]
  · intro hc
    simp [COCODataSource_load_data, hc]

/-- Claim C3, witness: for categories listed with ids `[5, 2]`, `num_classes` is set
to `2 + 1`; for an empty category list it is not set. -/
theorem coco_num_classes_last_category_witness :
    (COCODataSource_load_data false ""
        { images := [], annotations := [], categories := [⟨5⟩, ⟨2⟩] }).num_classes =
      some (2 + 1) ∧
      (COCODataSource_load_data false ""
        { images := [], annotations := [], categories := [] }).num_classes = none :=
  ⟨(coco_num_classes_last_category false ""
      { images := [], annotations := [], categories := [⟨5⟩, ⟨2⟩] }).1 ⟨2⟩ (by decide),
    (coco_num_classes_last_category false ""
      { images := [], annotations := [], categories := [] }).2 rfl⟩

/-- Claim C5.  For every retained image (one the training skip of line 65 does not
drop), `load_data` emits a sample whose box list is exactly the converted
`[x, y, x+w, y+h]` boxes of the annotations whose converted box has positive
width and height (`keep` of line 75 is equivalent to `0 < w ∧ 0 < h`); each
discarded annotation drops only its own entries from the `boxes`, `labels`,
`area` and `iscrowd` lists (they are aligned filtered projections of the same
kept annotations), and the image's sample is still emitted. -/
theorem coco_box_conversion (training : Bool) (root : String) (coco : CocoFile)
    (im : CocoImage) (hmem : im ∈ coco.images)
    (hnodup : (coco.images.map (fun i => i.id)).Nodup)
    (hkept : skipImage training (annsOf coco im.id) = false) :
    ∃ s ∈ (COCODataSource_load_data training root coco).data,
      s.input = pathJoin root im.file_name ∧
      s.target.image_id = im.id ∧
      s.target.boxes = ((annsOf coco im.id).filter keepBox).map convertBox ∧
      s.target.labels = ((annsOf coco im.id).filter keepBox).map (fun a => a.category_id) ∧
      s.target.area = ((annsOf coco im.id).filter keepBox).map (fun a => a.area) ∧
      s.target.iscrowd = ((annsOf coco im.id).filter keepBox).map (fun a => a.iscrowd) ∧
      ∀ a ∈ annsOf coco im.id,
        (keepBox a = true ↔ (0 < a.bbox.w ∧ 0 < a.bbox.h)) ∧
          convertBox a = [a.bbox.x, a.bbox.y, a.bbox.x + a.bbox.w, a.bbox.y + a.bbox.h] := by
  have hid : im.id ∈ sortedImgIds coco :=
    mem_sortedImgIds.mpr (List.mem_map_of_mem _ hmem)
  have hentry : (im.id, im.file_name) ∈ imgEntries coco :=
    List.mem_filterMap.mpr ⟨im.id, hid, by simp [loadImg_self hmem hnodup]⟩
  refine ⟨buildSample root im.id im.file_name (annsOf coco im.id),
    List.mem_filterMap.mpr ⟨(im.id, im.file_name), hentry, ?_⟩,
    rfl, rfl, rfl, rfl, rfl, rfl, ?_⟩
  · unfold processImage
    simp [hkept]
  · intro a _
    refine ⟨?_, rfl⟩
    simp only [keepBox, Bool.and_eq_true, decide_eq_true_eq]
    omega

/-- Claim C5, witness: the spec's example box `[10, 20, 30, 15]` converts to
`[10, 20, 40, 35]` and survives the filter, with its aligned label, area `450`
and crowd flag. -/
theorem coco_box_conversion_witness :
    (∃ s ∈ (COCODataSource_load_data false "r" cocoWitnessFile).data,
      s.input = pathJoin "r" "a.png" ∧
      s.target.image_id = 7 ∧
      s.target.boxes = ((annsOf cocoWitnessFile 7).filter keepBox).map convertBox ∧
      s.target.labels =
        ((annsOf cocoWitnessFile 7).filter keepBox).map (fun a => a.category_id) ∧
      s.target.area = ((annsOf cocoWitnessFile 7).filter keepBox).map (fun a => a.area) ∧
      s.target.iscrowd = ((annsOf cocoWitnessFile 7).filter keepBox).map (fun a => a.iscrowd) ∧
      ∀ a ∈ annsOf cocoWitnessFile 7,
        (keepBox a = true ↔ (0 < a.bbox.w ∧ 0 < a.bbox.h)) ∧
          convertBox a = [a.bbox.x, a.bbox.y, a.bbox.x + a.bbox.w, a.bbox.y + a.bbox.h]) ∧
      ((annsOf cocoWitnessFile 7).filter keepBox).map convertBox = [[10, 20, 40, 35]] ∧
      ((annsOf cocoWitnessFile 7).filter keepBox).map (fun a => a.area) = [450] :=
  ⟨coco_box_conversion false "r" cocoWitnessFile ⟨7, "a.png"⟩
      (by decide) (by decide) (by decide),
    by decide, by decide⟩

/-! ## Claims C8 and C10: `generate_dataset` -/

/-- Replaying a hook's attribute writes on a placeholder leaves, for each key,
the last value written for it — provided no write targets the `metadata`
attribute itself (such a write would replace the capture dict in the source). -/
theorem runWrites_metadata {γ : Type} :
    ∀ (ws : List (String × γ)) (m : MockDataset γ),
      "metadata" ∉ ws.map (fun p => p.1) →
      ∀ k, (runWrites m ws).metadata k =
        match lastWrite ws k with
        | some v => some v
        | none => m.metadata k := by
  intro ws
  induction ws with
  | nil => intro m _ k; rfl
  | cons kv rest ih =>
    intro m hnm k
    obtain ⟨k', v⟩ := kv
    have hk' : ¬ k' = "metadata" := by
      intro h
      exact hnm (by simp [h])
    have hrest : "metadata" ∉ rest.map (fun p => p.1) := by
      intro h
      exact hnm (by simp [h])
    have hstep : runWrites m ((k', v) :: rest) = runWrites (m.setattrHook k' v) rest := rfl
    rw [hstep, ih (m.setattrHook k' v) hrest k]
    cases hlw : lastWrite rest k with
    | some r => simp [lastWrite, hlw]
    | none =>
      simp only [lastWrite, hlw, MockDataset.setattrHook, hk', if_false]
      by_cases hkk : k = k' <;> simp [hkk]

/-- Claim C8.  A resolved `load_data` hook that declares a `dataset` parameter is run
with the mutable placeholder and its samples are returned untouched — the
produced dataset's samples are exactly the hook's output, so the placeholder
itself never appears among them — while every attribute the hook set on the
placeholder (the `metadata` attribute itself excepted) is copied onto the
produced dataset, each key holding the last value written for it and nothing
else being copied.  A hook without the parameter is run on the raw data alone
and the produced dataset carries no copied attributes. -/
theorem generate_dataset_placeholder {α β γ : Type}
    (f : PyData α → List (String × γ) × List β) (g : PyData α → List β) (v : α)
    (hnm : "metadata" ∉ (f (.atom v)).1.map (fun p => p.1)) :
    (∃ attrs, generate_dataset (.withDatasetArg f) (some (.atom v)) =
        .made (f (.atom v)).2 attrs ∧ ∀ k, attrs k = lastWrite (f (.atom v)).1 k) ∧
      generate_dataset (Hook.noDatasetArg g : Hook α β γ) (some (.atom v)) =
        .made (g (.atom v)) (fun _ => none) := by
  constructor
  · refine ⟨(runWrites MockDataset.initial (f (.atom v)).1).metadata, rfl, ?_⟩
    intro k
    rw [runWrites_metadata (f (.atom v)).1 MockDataset.initial hnm k]
    cases lastWrite (f (.atom v)).1 k <;> rfl
  · rfl

/-- Claim C8, witness: a hook writing `num_classes` twice yields a dataset whose
`num_classes` attribute holds the last value written and whose samples are the
hook's own; the no-`dataset` hook yields its samples and no attributes. -/
theorem generate_dataset_placeholder_witness :
    ((∃ attrs, generate_dataset
          (.withDatasetArg (fun _ => ([("num_classes", 2), ("num_classes", 5)], [7, 8])))
          (some (.atom (0 : Nat))) = .made [7, 8] attrs ∧
        ∀ k, attrs k = lastWrite [("num_classes", (2 : Nat)), ("num_classes", 5)] k) ∧
      generate_dataset (Hook.noDatasetArg (fun _ => [7, 8]) : Hook Nat Nat Nat)
          (some (.atom (0 : Nat))) =
        .made [7, 8] (fun _ => none)) ∧
      lastWrite [("num_classes", (2 : Nat)), ("num_classes", 5)] "num_classes" = some 5 :=
  ⟨generate_dataset_placeholder
      (fun _ => ([("num_classes", 2), ("num_classes", 5)], [7, 8]))
      (fun _ => [7, 8]) 0 (by decide),
    by decide⟩

/-- Claim C10.  `generate_dataset` produces no dataset when its data argument is
`None` and when the argument is a `Sequence` whose first element is `None`;
on an empty `Sequence` the `data[0]` check raises `IndexError` instead of
returning `None` or a dataset. -/
theorem generate_dataset_none_handling {α β γ : Type} (hook : Hook α β γ) :
    generate_dataset hook none = .skipped ∧
      (∀ xs : List (Option α), generate_dataset hook (some (.seq (none :: xs))) = .skipped) ∧
      generate_dataset hook (some (.seq [])) = .indexError :=
  ⟨rfl, fun _ => rfl, rfl⟩

end Flash
